import Mathlib

/-!
Shallow embedding of `src/http/frame/mod.rs` from the solicit HTTP/2 library.

Bytes (`u8` values) are represented as `Nat` kept below 256; `u32` values are
`Nat` kept below `2 ^ 32`.  Byte buffers and slices are `List Nat`.  Machine
bit operations (`<<`, `>>`, `|`, `&`) are mirrored by the corresponding `Nat`
operations `<<<`, `>>>`, `|||`, `&&&`, which coincide with the `u32`
operations on in-range values.  Code that can panic (assertions, out-of-range
slicing) is embedded as `Option`-returning code, with `none` for the panic.
-/

/-- The 4-tuple `(length, frame_type, flags, stream_id)`, mirroring the
`FrameHeader` type alias. -/
abbrev FrameHeader := Nat × Nat × Nat × Nat

/-- Embedding of the `unpack_octets_4!` macro: big-endian assembly of the 4
bytes found at `offset` in `buf`.  Out-of-range indices default to 0 (the
Rust code only invokes the macro in bounds). -/
def unpack_octets_4 (buf : List Nat) (offset : Nat) : Nat :=
  ((buf.getD (offset + 0) 0) <<< 24) |||
  ((buf.getD (offset + 1) 0) <<< 16) |||
  ((buf.getD (offset + 2) 0) <<< 8) |||
  ((buf.getD (offset + 3) 0) <<< 0)

/-- Embedding of `parse_stream_id`: assemble 4 octets and clear the most
significant bit.  In the source the mask is `!0x80000000` on `u32`, which
equals `0x7FFFFFFF = 2147483647`. -/
def parse_stream_id (buf : List Nat) : Nat :=
  let unpacked := unpack_octets_4 buf 0
  unpacked &&& 2147483647

/-- Embedding of `unpack_header`: deconstructs a 9-byte buffer into
`(length, frame_type, flags, stream_id)`. -/
def unpack_header (header : List Nat) : FrameHeader :=
  let length := ((header.getD 0 0) <<< 16) ||| ((header.getD 1 0) <<< 8) ||| (header.getD 2 0)
  let frame_type := header.getD 3 0
  let flags := header.getD 4 0
  let stream_id := parse_stream_id (header.drop 5)
  (length, frame_type, flags, stream_id)

/-- Embedding of `pack_header`: constructs the 9-byte buffer representing the
given `FrameHeader`.  Each `& 0x000000FF` is `&&& 255`. -/
def pack_header (header : FrameHeader) : List Nat :=
  let (length, frame_type, flags, stream_id) := header
  [ (length >>> 16) &&& 255,
    (length >>> 8) &&& 255,
    length &&& 255,
    frame_type,
    flags,
    (stream_id >>> 24) &&& 255,
    (stream_id >>> 16) &&& 255,
    (stream_id >>> 8) &&& 255,
    stream_id &&& 255 ]

/-- Embedding of `parse_padded_payload`: strips the padding envelope from a
payload, returning the actual data slice and the padding length. -/
def parse_padded_payload (payload : List Nat) : Option (List Nat × Nat) :=
  if payload.length = 0 then
    none
  else
    let pad_len := payload.getD 0 0
    if payload.length ≤ pad_len then
      none
    else
      some ((payload.drop 1).take (payload.length - pad_len - 1), pad_len)

/-- Embedding of `RawFrame`: the held bytes together with the `Cow` state
(`owned = false` for `Cow::Borrowed`, `owned = true` for `Cow::Owned`). -/
structure RawFrame where
  owned : Bool
  raw_content : List Nat
  deriving DecidableEq

/-- Embedding of `From<&[u8]> for RawFrame` (`Cow::Borrowed`). -/
def RawFrame.fromSlice (raw : List Nat) : RawFrame :=
  { owned := false, raw_content := raw }

/-- Embedding of `From<Vec<u8>> for RawFrame` (`Cow::Owned`). -/
def RawFrame.fromVec (raw : List Nat) : RawFrame :=
  { owned := true, raw_content := raw }

/-- Embedding of `RawFrame::parse`: rejects buffers shorter than 9 bytes and
buffers whose tail after the header is shorter than the declared payload
length; otherwise borrows the first `9 + payload_len` bytes. -/
def RawFrame.parse (buf : List Nat) : Option RawFrame :=
  if buf.length < 9 then
    none
  else
    let header := unpack_header (buf.take 9)
    let payload_len := header.1
    if (buf.drop 9).length < payload_len then
      none
    else
      some (RawFrame.fromSlice (buf.take (9 + payload_len)))

/-- Embedding of `RawFrame::into_static`: `Cow::into_owned` keeps the bytes
and makes the result owning. -/
def RawFrame.into_static (f : RawFrame) : RawFrame :=
  { owned := true, raw_content := f.raw_content }

/-- Embedding of `RawFrame::len`: length of the held byte range. -/
def RawFrame.len (f : RawFrame) : Nat :=
  f.raw_content.length

/-- Embedding of `RawFrame::serialize`: an owned copy of the held bytes. -/
def RawFrame.serialize (f : RawFrame) : List Nat :=
  f.raw_content

/-- Embedding of `RawFrame::header`: decode the first 9 held bytes.  The
source asserts `raw_content.len() >= 9` before the fixed-size read; the
failing assertion is embedded as `none`. -/
def RawFrame.header (f : RawFrame) : Option FrameHeader :=
  if 9 ≤ f.raw_content.length then
    some (unpack_header (f.raw_content.take 9))
  else
    none

/-- Embedding of `RawFrame::payload`: the slice `raw_content[9..]`.  Rust
range slicing panics when the buffer is shorter than 9 bytes; the panic is
embedded as `none`. -/
def RawFrame.payload (f : RawFrame) : Option (List Nat) :=
  if 9 ≤ f.raw_content.length then
    some (f.raw_content.drop 9)
  else
    none

/-- Modelled from the spec: the `FrameBuilder` sink abstraction (defined in
`src/http/frame/builder.rs`, which is not part of the sources here).  Per §6
of the spec it exposes two operations — write the 9 header bytes and write a
run of payload bytes — each of which transforms the sink state and may fail.
A call returns the updated sink state and an optional error, matching a Rust
`&mut` sink that retains partially written data when a write fails. -/
structure FrameBuilderModel (σ ε : Type) where
  write_header : FrameHeader → σ → σ × Option ε
  write_all : List Nat → σ → σ × Option ε

/-- Embedding of `impl FrameIR for RawFrame`: `try!(b.write_header(self.header()))`
followed by `b.write_all(self.payload())`.  The outer `Option` is the panic
of `header()`/`payload()` on a frame shorter than 9 bytes; the inner
`Option ε` is the propagated sink error. -/
def RawFrame.serialize_into {σ ε : Type} (B : FrameBuilderModel σ ε) (f : RawFrame)
    (s : σ) : Option (σ × Option ε) :=
  match f.header with
  | none => none
  | some h =>
    match B.write_header h s with
    | (s1, some e) => some (s1, some e)
    | (s1, none) =>
      match f.payload with
      | none => none
      | some p => some (B.write_all p s1)

/-- Modelled from the spec: a concrete always-succeeding sink accumulating
written bytes, whose header write emits exactly the 9 bytes produced by the
header codec (spec §6: "write these exact 9 header bytes"). -/
def bufWriter (ε : Type) : FrameBuilderModel (List Nat) ε :=
  { write_header := fun h s => (s ++ pack_header h, none),
    write_all := fun bs s => (s ++ bs, none) }

/-- Modelled from the spec: a sink whose header write succeeds (emitting the
header-codec bytes) and whose payload write fails with `e` before writing
anything, used to observe partial writes. -/
def bufWriterFailPayload {ε : Type} (e : ε) : FrameBuilderModel (List Nat) ε :=
  { write_header := fun h s => (s ++ pack_header h, none),
    write_all := fun _ s => (s, some e) }

/-! Arithmetic helper lemmas about the bit operations used by the codec. -/

lemma lor_eq_add_of_lt {a b k : Nat} (ha : a % 2 ^ k = 0) (hb : b < 2 ^ k) :
    a ||| b = a + b := by
  obtain ⟨c, hc⟩ := Nat.dvd_of_mod_eq_zero ha
  subst hc
  exact (Nat.mul_add_lt_is_or hb c).symm

lemma and255 (x : Nat) : x &&& 255 = x % 256 := by
  have h := Nat.and_pow_two_sub_one_eq_mod x 8
  norm_num at h
  exact h

lemma and_mask31 (x : Nat) : x &&& 2147483647 = x % 2147483648 := by
  have h := Nat.and_pow_two_sub_one_eq_mod x 31
  norm_num at h
  exact h

lemma assemble3 (x0 x1 x2 : Nat) (h1 : x1 < 256) (h2 : x2 < 256) :
    (x0 <<< 16) ||| (x1 <<< 8) ||| x2 = x0 * 65536 + x1 * 256 + x2 := by
  have ha : (x0 <<< 16) % 2 ^ 16 = 0 := by
    simp [Nat.shiftLeft_eq, Nat.mul_mod_left]
  have hb : (x1 <<< 8) < 2 ^ 16 := by
    rw [Nat.shiftLeft_eq]
    omega
  rw [lor_eq_add_of_lt ha hb, Nat.shiftLeft_eq, Nat.shiftLeft_eq]
  have ha2 : (x0 * 2 ^ 16 + x1 * 2 ^ 8) % 2 ^ 8 = 0 := by omega
  have hb2 : x2 < 2 ^ 8 := by omega
  rw [lor_eq_add_of_lt ha2 hb2]
  omega

lemma assemble4 (x0 x1 x2 x3 : Nat) (h1 : x1 < 256) (h2 : x2 < 256) (h3 : x3 < 256) :
    (x0 <<< 24) ||| (x1 <<< 16) ||| (x2 <<< 8) ||| (x3 <<< 0) =
      x0 * 16777216 + x1 * 65536 + x2 * 256 + x3 := by
  rw [Nat.shiftLeft_zero]
  have ha : (x0 <<< 24) % 2 ^ 24 = 0 := by
    simp [Nat.shiftLeft_eq, Nat.mul_mod_left]
  have hb : (x1 <<< 16) < 2 ^ 24 := by
    rw [Nat.shiftLeft_eq]
    omega
  rw [lor_eq_add_of_lt ha hb, Nat.shiftLeft_eq, Nat.shiftLeft_eq]
  have ha2 : (x0 * 2 ^ 24 + x1 * 2 ^ 16) % 2 ^ 16 = 0 := by omega
  have hb2 : (x2 <<< 8) < 2 ^ 16 := by
    rw [Nat.shiftLeft_eq]
    omega
  rw [lor_eq_add_of_lt ha2 hb2, Nat.shiftLeft_eq]
  have ha3 : (x0 * 2 ^ 24 + x1 * 2 ^ 16 + x2 * 2 ^ 8) % 2 ^ 8 = 0 := by omega
  have hb3 : x3 < 2 ^ 8 := by omega
  rw [lor_eq_add_of_lt ha3 hb3]
  omega

/-- The packed header of any components decodes to their modular reductions:
the length modulo `2 ^ 24` and the stream id modulo `2 ^ 31`. -/
lemma unpack_pack_mod (l t f s : Nat) :
    unpack_header (pack_header (l, t, f, s)) = (l % 16777216, t, f, s % 2147483648) := by
  have hu : unpack_header (pack_header (l, t, f, s)) =
      ((((l >>> 16) &&& 255) <<< 16) ||| (((l >>> 8) &&& 255) <<< 8) ||| (l &&& 255), t, f,
        ((((s >>> 24) &&& 255) <<< 24) ||| (((s >>> 16) &&& 255) <<< 16) |||
          (((s >>> 8) &&& 255) <<< 8) ||| ((s &&& 255) <<< 0)) &&& 2147483647) := rfl
  rw [hu]
  simp only [and255]
  rw [assemble3 ((l >>> 16) % 256) ((l >>> 8) % 256) (l % 256) (by omega) (by omega)]
  rw [assemble4 ((s >>> 24) % 256) ((s >>> 16) % 256) ((s >>> 8) % 256) (s % 256)
    (by omega) (by omega) (by omega)]
  simp only [Nat.shiftRight_eq_div_pow, and_mask31]
  simp only [Prod.mk.injEq]
  refine ⟨by omega, trivial, trivial, by omega⟩

lemma getD_drop (l : List Nat) (i j : Nat) : (l.drop i).getD j 0 = l.getD (i + j) 0 := by
  simp [List.getD_eq_getElem?_getD, List.getElem?_drop]

lemma getD_lt_256 {b : List Nat} (hb : ∀ x ∈ b, x < 256) (i : Nat) : b.getD i 0 < 256 := by
  rcases Nat.lt_or_ge i b.length with h | h
  · rw [List.getD_eq_getElem?_getD, List.getElem?_eq_getElem h]
    exact hb _ (List.getElem_mem h)
  · rw [List.getD_eq_getElem?_getD, List.getElem?_eq_none h]
    norm_num

/-- Decoding any buffer of bytes yields the big-endian assembly of bytes 0-2,
bytes 3 and 4 verbatim, and the big-endian assembly of bytes 5-8 reduced
modulo `2 ^ 31`. -/
lemma unpack_header_bytes (b : List Nat) (hb : ∀ x ∈ b, x < 256) :
    unpack_header b =
      (b.getD 0 0 * 65536 + b.getD 1 0 * 256 + b.getD 2 0, b.getD 3 0, b.getD 4 0,
        (b.getD 5 0 * 16777216 + b.getD 6 0 * 65536 + b.getD 7 0 * 256 + b.getD 8 0) %
          2147483648) := by
  unfold unpack_header parse_stream_id unpack_octets_4
  simp only [getD_drop, Nat.reduceAdd]
  rw [assemble3 _ _ _ (getD_lt_256 hb 1) (getD_lt_256 hb 2),
    assemble4 _ _ _ _ (getD_lt_256 hb 6) (getD_lt_256 hb 7) (getD_lt_256 hb 8),
    and_mask31]

/-- Claim C1: for every header whose length fits in 24 bits and whose stream
id fits in 31 bits (with type and flags octets in range), decoding the packed
9-byte buffer yields the header again. -/
theorem claim1_header_roundtrip (l t f s : Nat) (hl : l < 16777216) (ht : t < 256)
    (hf : f < 256) (hs : s < 2147483648) :
    unpack_header (pack_header (l, t, f, s)) = (l, t, f, s) := by
  rw [unpack_pack_mod, Nat.mod_eq_of_lt hl, Nat.mod_eq_of_lt hs]

theorem claim1_witness : unpack_header (pack_header (5, 1, 8, 3)) = (5, 1, 8, 3) :=
  claim1_header_roundtrip 5 1 8 3 (by decide) (by decide) (by decide) (by decide)

/-- Claim C10: for arbitrary `u32` length and stream id and `u8` type and
flags, the round trip reduces the length modulo `2 ^ 24` (encode truncates to
the low 24 bits) and the stream id modulo `2 ^ 31` (encode writes bit 31,
decode clears it). -/
theorem claim10_modular_roundtrip (l t f s : Nat) (hl : l < 4294967296) (ht : t < 256)
    (hf : f < 256) (hs : s < 4294967296) :
    unpack_header (pack_header (l, t, f, s)) = (l % 16777216, t, f, s % 2147483648) :=
  unpack_pack_mod l t f s

theorem claim10_witness :
    unpack_header (pack_header (16777226, 2, 3, 2147483655)) =
      (16777226 % 16777216, 2, 3, 2147483655 % 2147483648) :=
  claim10_modular_roundtrip 16777226 2 3 2147483655 (by decide) (by decide) (by decide)
    (by decide)

/-- Claim C3: for every 9-byte buffer, decoding assembles the length
big-endian from bytes 0-2, takes the type and flags from bytes 3 and 4, and
assembles the stream id big-endian from bytes 5-8 with bit 31 cleared; in
particular the decoded stream id is unchanged when the top bit of byte 5 is
cleared. -/
theorem claim3_unpack_header_spec :
    (∀ b : List Nat, b.length = 9 → (∀ x ∈ b, x < 256) →
      unpack_header b =
        (b.getD 0 0 * 65536 + b.getD 1 0 * 256 + b.getD 2 0, b.getD 3 0, b.getD 4 0,
          (b.getD 5 0 * 16777216 + b.getD 6 0 * 65536 + b.getD 7 0 * 256 + b.getD 8 0) %
            2147483648))
    ∧ (∀ b c : List Nat, b.length = 9 → c.length = 9 →
        (∀ x ∈ b, x < 256) → (∀ x ∈ c, x < 256) →
        (∀ i, i ≠ 5 → b.getD i 0 = c.getD i 0) →
        b.getD 5 0 % 128 = c.getD 5 0 % 128 →
        (unpack_header b).2.2.2 = (unpack_header c).2.2.2) := by
  constructor
  · intro b _ hb
    exact unpack_header_bytes b hb
  · intro b c _ _ hb hc hi h5
    rw [unpack_header_bytes b hb, unpack_header_bytes c hc]
    have h6 := hi 6 (by omega)
    have h7 := hi 7 (by omega)
    have h8 := hi 8 (by omega)
    have hb5 := getD_lt_256 hb 5
    have hc5 := getD_lt_256 hc 5
    have hb6 := getD_lt_256 hb 6
    have hb7 := getD_lt_256 hb 7
    have hb8 := getD_lt_256 hb 8
    dsimp only
    omega

theorem claim3_witness : unpack_header [0, 0, 1, 0, 0, 128, 0, 0, 1] = (1, 0, 0, 1) := by
  have h := claim3_unpack_header_spec.1 [0, 0, 1, 0, 0, 128, 0, 0, 1] (by decide) (by decide)
  norm_num [List.getD_cons_zero, List.getD_cons_succ] at h
  exact h

/-- Claim C4 counterexample: at header `(0, 0, 0, 2 ^ 31)` the packed buffer
has the most significant bit of byte 5 set, so the claim that `pack_header`
never sets the reserved bit fails for out-of-contract stream ids. -/
theorem claim4_counterexample :
    ¬ ((pack_header (0, 0, 0, 2147483648)).getD 5 0 < 128) := by decide

/-- Claim C4 (amended): `pack_header` writes the length as 3 big-endian bytes
discarding the upper 8 bits of the 32-bit value, the type and flags verbatim,
and the stream id as 4 big-endian bytes; whenever the stream id honours the
31-bit caller contract the reserved bit of the output is 0 (for larger values
bit 31 of the stream id is written through). -/
theorem claim4_pack_header_spec (l t f s : Nat) (hl : l < 4294967296) (ht : t < 256)
    (hf : f < 256) (hs : s < 4294967296) :
    pack_header (l, t, f, s) =
      [l / 65536 % 256, l / 256 % 256, l % 256, t, f,
        s / 16777216 % 256, s / 65536 % 256, s / 256 % 256, s % 256]
    ∧ (s < 2147483648 → (pack_header (l, t, f, s)).getD 5 0 < 128) := by
  have hp : pack_header (l, t, f, s) =
      [(l >>> 16) &&& 255, (l >>> 8) &&& 255, l &&& 255, t, f,
        (s >>> 24) &&& 255, (s >>> 16) &&& 255, (s >>> 8) &&& 255, s &&& 255] := rfl
  constructor
  · rw [hp]
    simp only [and255, Nat.shiftRight_eq_div_pow]
  · intro hs31
    rw [hp]
    simp only [List.getD_cons_succ, List.getD_cons_zero]
    rw [and255, Nat.shiftRight_eq_div_pow]
    omega

theorem claim4_witness : (pack_header (258, 2, 3, 2147483647)).getD 5 0 < 128 :=
  (claim4_pack_header_spec 258 2 3 2147483647 (by decide) (by decide) (by decide)
    (by decide)).2 (by decide)

/-- Unfolding lemma for `RawFrame.parse` with the let-bindings inlined. -/
lemma RawFrame.parse_eq (buf : List Nat) :
    RawFrame.parse buf =
      if buf.length < 9 then none
      else if (buf.drop 9).length < (unpack_header (buf.take 9)).1 then none
      else some (RawFrame.fromSlice (buf.take (9 + (unpack_header (buf.take 9)).1))) := rfl

/-- Unfolding lemma for `parse_padded_payload` with the let-binding inlined. -/
lemma parse_padded_payload_eq (p : List Nat) :
    parse_padded_payload p =
      if p.length = 0 then none
      else if p.length ≤ p.getD 0 0 then none
      else some ((p.drop 1).take (p.length - p.getD 0 0 - 1), p.getD 0 0) := rfl

/-- Claim C2: `RawFrame::parse` returns `none` exactly when the buffer is
shorter than 9 bytes or shorter than `9 + length` bytes, where `length` is
the 24-bit length field decoded from the header; on success the frame holds
exactly the first `9 + length` bytes, so its serialization equals exactly
those bytes and trailing bytes are not included. -/
theorem claim2_parse_spec (buf : List Nat) (hbytes : ∀ x ∈ buf, x < 256) :
    (RawFrame.parse buf = none ↔
      buf.length < 9 ∨ buf.length < 9 + (unpack_header (buf.take 9)).1)
    ∧ (∀ fr, RawFrame.parse buf = some fr →
        fr.serialize = buf.take (9 + (unpack_header (buf.take 9)).1)) := by
  rw [RawFrame.parse_eq, List.length_drop]
  generalize (unpack_header (buf.take 9)).1 = L
  rcases Nat.lt_or_ge buf.length 9 with h | h
  · rw [if_pos h]
    exact ⟨⟨fun _ => Or.inl h, fun _ => rfl⟩, fun fr hfr => Option.noConfusion hfr⟩
  · rw [if_neg (Nat.not_lt.mpr h)]
    rcases Nat.lt_or_ge (buf.length - 9) L with h2 | h2
    · rw [if_pos h2]
      exact ⟨⟨fun _ => Or.inr (by omega), fun _ => rfl⟩, fun fr hfr => Option.noConfusion hfr⟩
    · rw [if_neg (Nat.not_lt.mpr h2)]
      refine ⟨⟨fun hno => Option.noConfusion hno, fun hor => absurd hor (by omega)⟩,
        fun fr hfr => ?_⟩
      cases hfr
      rfl

theorem claim2_witness : RawFrame.parse [0, 0, 1, 0, 0, 0, 0, 0, 0] = none :=
  (claim2_parse_spec [0, 0, 1, 0, 0, 0, 0, 0, 0] (by decide)).1.mpr (by decide)

/-- Claim C5: the padding extractor fails exactly when the payload is empty
or the declared padding length is not less than the payload length; on
success it returns the bytes strictly between the length byte and the
trailing padding, together with the padding length. -/
theorem claim5_padding_spec :
    (∀ p : List Nat, parse_padded_payload p = none ↔ p.length = 0 ∨ p.length ≤ p.getD 0 0)
    ∧ (∀ p : List Nat, p.length ≠ 0 → p.getD 0 0 < p.length →
        parse_padded_payload p =
          some ((p.drop 1).take (p.length - p.getD 0 0 - 1), p.getD 0 0))
    ∧ (∀ (pad : Nat) (data padding : List Nat), padding.length = pad →
        parse_padded_payload (pad :: (data ++ padding)) = some (data, pad)) := by
  refine ⟨?_, ?_, ?_⟩
  · intro p
    rw [parse_padded_payload_eq]
    rcases Nat.eq_zero_or_pos p.length with h | h
    · rw [if_pos h]
      exact ⟨fun _ => Or.inl h, fun _ => rfl⟩
    · rw [if_neg (by omega)]
      rcases le_or_lt p.length (p.getD 0 0) with h2 | h2
      · rw [if_pos h2]
        exact ⟨fun _ => Or.inr h2, fun _ => rfl⟩
      · rw [if_neg (Nat.not_le.mpr h2)]
        exact ⟨fun hc => Option.noConfusion hc, fun hor => absurd hor (by omega)⟩
  · intro p h0 hlt
    rw [parse_padded_payload_eq, if_neg h0, if_neg (Nat.not_le.mpr hlt)]
  · intro pad data padding hpad
    have h0 : (pad :: (data ++ padding)).length = data.length + pad + 1 := by
      simp [hpad]
    have harith : (pad :: (data ++ padding)).length - pad - 1 = data.length := by omega
    rw [parse_padded_payload_eq, if_neg (by simp), if_neg (by simp [hpad]; omega)]
    simp only [List.getD_cons_zero, List.drop_succ_cons, List.drop_zero, harith]
    rw [List.take_left]

theorem claim5_witness :
    parse_padded_payload (3 :: ([1, 2, 3, 4] ++ [0, 0, 0])) = some ([1, 2, 3, 4], 3) :=
  claim5_padding_spec.2.2 3 [1, 2, 3, 4] [0, 0, 0] rfl

/-- Claim C6: `len` returns the total byte count of the held range; for a
frame constructed by `parse` this coincides with `9 +` the decoded header
length field, and for an unchecked from-buffer construction the coincidence
can fail. -/
theorem claim6_len_spec :
    (∀ fr : RawFrame, fr.len = fr.raw_content.length)
    ∧ (∀ buf fr, RawFrame.parse buf = some fr →
        fr.len = 9 + (unpack_header (fr.raw_content.take 9)).1)
    ∧ (∃ buf : List Nat, (RawFrame.fromSlice buf).len ≠
        9 + (unpack_header ((RawFrame.fromSlice buf).raw_content.take 9)).1) := by
  refine ⟨fun fr => rfl, ?_, ⟨[0, 0, 5, 0, 0, 0, 0, 0, 0], by decide⟩⟩
  intro buf fr hfr
  rw [RawFrame.parse_eq] at hfr
  rcases Nat.lt_or_ge buf.length 9 with h | h
  · rw [if_pos h] at hfr
    exact Option.noConfusion hfr
  · rw [if_neg (Nat.not_lt.mpr h), List.length_drop] at hfr
    rcases Nat.lt_or_ge (buf.length - 9) (unpack_header (buf.take 9)).1 with h2 | h2
    · rw [if_pos h2] at hfr
      exact Option.noConfusion hfr
    · rw [if_neg (Nat.not_lt.mpr h2)] at hfr
      cases hfr
      have ht : (buf.take (9 + (unpack_header (buf.take 9)).1)).take 9 = buf.take 9 := by
        rw [List.take_take]
        congr 1
        omega
      simp only [RawFrame.len, RawFrame.fromSlice, ht, List.length_take]
      omega

theorem claim6_witness :
    (RawFrame.fromSlice [0, 0, 1, 0, 0, 0, 0, 0, 0, 1]).len =
      9 + (unpack_header ((RawFrame.fromSlice
        [0, 0, 1, 0, 0, 0, 0, 0, 0, 1]).raw_content.take 9)).1 :=
  claim6_len_spec.2.1 [0, 0, 1, 0, 0, 0, 0, 0, 0, 1]
    (RawFrame.fromSlice [0, 0, 1, 0, 0, 0, 0, 0, 0, 1]) (by decide)

/-- Claim C7: for identical byte content a borrowing-constructed and an
owned-buffer-constructed frame give identical `header`, `payload` and
`serialize` results, and `into_static` keeps the held bytes, hence all three
results, unchanged. -/
theorem claim7_borrow_owned_equiv (bytes : List Nat) :
    (RawFrame.fromSlice bytes).header = (RawFrame.fromVec bytes).header
    ∧ (RawFrame.fromSlice bytes).payload = (RawFrame.fromVec bytes).payload
    ∧ (RawFrame.fromSlice bytes).serialize = (RawFrame.fromVec bytes).serialize
    ∧ (RawFrame.fromSlice bytes).into_static.raw_content = bytes
    ∧ (RawFrame.fromSlice bytes).into_static.header = (RawFrame.fromSlice bytes).header
    ∧ (RawFrame.fromSlice bytes).into_static.payload = (RawFrame.fromSlice bytes).payload
    ∧ (RawFrame.fromSlice bytes).into_static.serialize = (RawFrame.fromSlice bytes).serialize :=
  ⟨rfl, rfl, rfl, rfl, rfl, rfl, rfl⟩

/-- Claim C8: for a frame holding at least 9 bytes, `serialize_into` writes
the 9 header-codec bytes of `header()` into the sink followed by the payload
bytes; a failing header write is propagated unchanged with the payload write
never attempted, and a failing payload write is propagated unchanged leaving
the already-written header bytes in the sink. -/
theorem claim8_serialize_into_spec (ε : Type) (f : RawFrame)
    (h9 : 9 ≤ f.raw_content.length) :
    (∀ s : List Nat,
      f.serialize_into (bufWriter ε) s =
        some ((s ++ pack_header (unpack_header (f.raw_content.take 9))) ++
          f.raw_content.drop 9, none))
    ∧ (∀ (s : List Nat) (e : ε),
        f.serialize_into (bufWriterFailPayload e) s =
          some (s ++ pack_header (unpack_header (f.raw_content.take 9)), some e))
    ∧ (∀ (σ : Type) (B : FrameBuilderModel σ ε) (s0 s1 : σ) (er : ε),
        B.write_header (unpack_header (f.raw_content.take 9)) s0 = (s1, some er) →
        f.serialize_into B s0 = some (s1, some er)) := by
  have hh : f.header = some (unpack_header (f.raw_content.take 9)) := by
    unfold RawFrame.header
    rw [if_pos h9]
  have hp : f.payload = some (f.raw_content.drop 9) := by
    unfold RawFrame.payload
    rw [if_pos h9]
  refine ⟨?_, ?_, ?_⟩
  · intro s
    unfold RawFrame.serialize_into
    rw [hh]
    simp only [bufWriter]
    rw [hp]
  · intro s e
    unfold RawFrame.serialize_into
    rw [hh]
    simp only [bufWriterFailPayload]
    rw [hp]
  · intro σ B s0 s1 er hw
    unfold RawFrame.serialize_into
    rw [hh]
    dsimp only
    rw [hw]

theorem claim8_witness :
    (RawFrame.fromSlice [0, 0, 1, 0, 0, 0, 0, 0, 4, 9]).serialize_into
      (bufWriterFailPayload (7 : Nat)) [] = some ([0, 0, 1, 0, 0, 0, 0, 0, 4], some 7) := by
  rw [(claim8_serialize_into_spec Nat (RawFrame.fromSlice [0, 0, 1, 0, 0, 0, 0, 0, 4, 9])
    (by decide)).2.1 [] 7]
  decide

/-- Claim C9: on a frame holding at least 9 bytes, `header` and `payload`
succeed, returning the decode of the first 9 held bytes and the bytes from
offset 9 to the end; on fewer than 9 bytes both hit their error branch
(failed assertion / out-of-bounds slice). -/
theorem claim9_accessor_safety (f : RawFrame) :
    (9 ≤ f.raw_content.length →
      f.header = some (unpack_header (f.raw_content.take 9))
      ∧ f.payload = some (f.raw_content.drop 9))
    ∧ (f.raw_content.length < 9 → f.header = none ∧ f.payload = none) := by
  constructor
  · intro h
    unfold RawFrame.header RawFrame.payload
    rw [if_pos h, if_pos h]
    exact ⟨rfl, rfl⟩
  · intro h
    unfold RawFrame.header RawFrame.payload
    rw [if_neg (by omega), if_neg (by omega)]
    exact ⟨rfl, rfl⟩

theorem claim9_witness :
    ((RawFrame.fromSlice [0, 0, 1, 0, 0, 0, 0, 0, 0, 1]).payload = some [1])
    ∧ (RawFrame.fromSlice [1, 2, 3]).header = none := by
  constructor
  · have h := (claim9_accessor_safety (RawFrame.fromSlice
      [0, 0, 1, 0, 0, 0, 0, 0, 0, 1])).1 (by decide)
    rw [h.2]
    decide
  · exact ((claim9_accessor_safety (RawFrame.fromSlice [1, 2, 3])).2 (by decide)).1

example : unpack_header [0, 0, 1, 2, 3, 0, 0, 0, 4] = (1, 2, 3, 4) := by decide
example : unpack_header [0, 0, 1, 0, 0, 128, 0, 0, 1] = (1, 0, 0, 1) := by decide
example : pack_header (1, 2, 3, 4) = [0, 0, 1, 2, 3, 0, 0, 0, 4] := by decide
example : RawFrame.parse [1, 2, 3] = none := by decide
example : RawFrame.parse [0, 0, 1, 0, 0, 0, 0, 0, 0] = none := by decide
example : RawFrame.parse [0, 0, 1, 0, 0, 0, 0, 0, 0, 1, 7] =
    some (RawFrame.fromSlice [0, 0, 1, 0, 0, 0, 0, 0, 0, 1]) := by decide
example : parse_padded_payload [3, 1, 2, 3, 4, 0, 0, 0] = some ([1, 2, 3, 4], 3) := by decide
example : parse_padded_payload [8, 1, 2, 3, 4, 0, 0, 0] = none := by decide
